import Mathlib

/-!
Verification development for the `wharf-core` structured-logging core
(`pkg/logger` and `internal/traceutil`), as a shallow embedding in Lean 4.

Go's `Level` is a `byte` enumeration; it is embedded as `Nat` (all claim-
relevant values are tiny, well below any overflow boundary).  The mutable
package-level variables of `pkg/logger/logger.go` (`minGlobalLevel`,
`minScopedLevels`, `registeredSinks`, `LongestScopeNameLength`) are embedded
as an explicit `LogState` record threaded through the operations.  The
`Context` interface is embedded by its initial (free) model: a context
records the sink that created it, the scope it was created for, and the list
of set/append operations applied to it; a concrete sink is a homomorphic
image of this model.  Side effects the claims observe (NewContext calls,
WriteOut calls, `fmt.Sprintf` evaluation, `fmt.Stringer.String()` calls,
invocations of the done-continuation) are returned as explicit values next
to the embedded function's result.
-/

namespace WharfCore

/-! ## `pkg/logger/level.go` -/

/-- Go `type Level byte`; values are small naturals. -/
abbrev Level := Nat

/-- `LevelDebug Level = iota` — the lowest logging level. -/
def LevelDebug : Level := 0

/-- `LevelInfo` -/
def LevelInfo : Level := 1

/-- `LevelWarn` -/
def LevelWarn : Level := 2

/-- `LevelError` -/
def LevelError : Level := 3

/-- `LevelPanic` — the highest logging level. -/
def LevelPanic : Level := 4

/-- Modelled from the spec: the `LevelSilence` constant itself is not in the
source tree given under src/ (only its uses in `doc.go` tests and doc
comments are), and the spec describes it as the sentinel level "above Panic
used only as a filter threshold".  Continuing the `iota` run above
`LevelPanic = 4` gives `5`. -/
def LevelSilence : Level := 5

/-- `Level.String()`: readable rendering; unknown values hit the `default`
branch `fmt.Sprintf("Level(%d)", byte(lvl))`. -/
def levelString (lvl : Level) : String :=
  if lvl = LevelDebug then "Debugging"
  else if lvl = LevelInfo then "Information"
  else if lvl = LevelWarn then "Warning"
  else if lvl = LevelError then "Error"
  else if lvl = LevelPanic then "Panic"
  else "Level(" ++ toString lvl ++ ")"

/-- Go `error` results are embedded as `Option String` (`none` = nil error). -/
abbrev GoError := Option String

/-- ASCII lower-casing of one character (model of Go `strings.ToLower` on the
character range the logger deals in). -/
def lowerChar (c : Char) : Char :=
  if 'A' ≤ c ∧ c ≤ 'Z' then Char.ofNat (c.toNat + 32) else c

/-- Model of Go `strings.ToLower`. -/
def goToLower (s : String) : String := String.mk (s.data.map lowerChar)

/-- ASCII upper-casing of one character (model of Go `strings.ToUpper`). -/
def upperChar (c : Char) : Char :=
  if 'a' ≤ c ∧ c ≤ 'z' then Char.ofNat (c.toNat - 32) else c

/-- Model of Go `strings.ToUpper`. -/
def goToUpper (s : String) : String := String.mk (s.data.map upperChar)

/-- The whitespace characters Go `strings.TrimSpace` strips (ASCII subset). -/
def isSpaceChar (c : Char) : Bool := c = ' ' ∨ c = '\t' ∨ c = '\n' ∨ c = '\r'

/-- Model of Go `strings.TrimSpace`: drop whitespace from both ends. -/
def goTrimSpace (s : String) : String :=
  String.mk (((s.data.dropWhile isSpaceChar).reverse.dropWhile isSpaceChar).reverse)

/-- The `switch` body of `ParseLevel`: `t` is the normalised scrutinee,
`lvl` the original argument (quoted in the error message). -/
def parseLevelSwitch (t lvl : String) : Level × GoError :=
  if t = "d" ∨ t = "debug" ∨ t = "debugging" then (LevelDebug, none)
  else if t = "i" ∨ t = "info" ∨ t = "information" then (LevelInfo, none)
  else if t = "w" ∨ t = "warn" ∨ t = "warning" then (LevelWarn, none)
  else if t = "e" ∨ t = "error" then (LevelError, none)
  else if t = "p" ∨ t = "panic" then (LevelPanic, none)
  else (LevelDebug, some ("invalid logging level string: \x22" ++ lvl ++ "\x22"))

/-- `ParseLevel(lvl string) (Level, error)`: switches on
`strings.TrimSpace(strings.ToLower(lvl))`; the `default` branch returns
`LevelDebug` with the error `fmt.Errorf("invalid logging level string: %q", lvl)`. -/
def ParseLevel (lvl : String) : Level × GoError :=
  parseLevelSwitch (goTrimSpace (goToLower lvl)) lvl

/-! ## `pkg/logger/logger.go` — registry state and events

The package-level variables become the `LogState` record.  A `Sink` is
identified by a `Nat` id; `Sink.NewContext` is embedded by the initial model
of the `Context` interface: the fresh context remembers its sink id and
scope, and every `Set`/`Append` operation is recorded as a `CtxOp`. -/

/-- One recorded operation applied to a `Context`
(`SetCaller` / `SetError` / the `AppendXxx` family). -/
inductive CtxOp where
  | setCaller (file : String) (line : Int)
  | setError (msg : String)
  | appendString (key : String) (value : String)
  | appendRune (key : String) (value : Char)
  | appendBool (key : String) (value : Bool)
  | appendInt (key : String) (value : Int)
  | appendUint (key : String) (value : Nat)
  deriving Repr, DecidableEq

/-- Initial model of the `Context` interface: the sink that created it, the
scope it was created for, and the operations applied so far, in order. -/
structure Context where
  sinkId : Nat
  scope : String
  ops : List CtxOp
  deriving Repr, DecidableEq

/-- `Sink.NewContext(scope)`: a fresh context for sink `sinkId`. -/
def newContext (sinkId : Nat) (scope : String) : Context :=
  { sinkId := sinkId, scope := scope, ops := [] }

def Context.SetCaller (c : Context) (file : String) (line : Int) : Context :=
  { c with ops := c.ops ++ [.setCaller file line] }

def Context.AppendString (c : Context) (key value : String) : Context :=
  { c with ops := c.ops ++ [.appendString key value] }

def Context.AppendRune (c : Context) (key : String) (value : Char) : Context :=
  { c with ops := c.ops ++ [.appendRune key value] }

def Context.AppendBool (c : Context) (key : String) (value : Bool) : Context :=
  { c with ops := c.ops ++ [.appendBool key value] }

def Context.AppendInt (c : Context) (key : String) (value : Int) : Context :=
  { c with ops := c.ops ++ [.appendInt key value] }

def Context.AppendUint (c : Context) (key : String) (value : Nat) : Context :=
  { c with ops := c.ops ++ [.appendUint key value] }

/-- `type registeredSink struct { sink Sink; minLevel Level }` with the sink
identified by its id. -/
structure RegisteredSink where
  sinkId : Nat
  minLevel : Level
  deriving Repr, DecidableEq

/-- The package-level mutable variables of `logger.go`:
`minGlobalLevel`, `minScopedLevels`, `registeredSinks`,
`LongestScopeNameLength`.  The scoped-level map is an association list keyed
by the (uppercased) scope name, as maintained by `SetLevelScoped`. -/
structure LogState where
  minGlobalLevel : Level
  minScopedLevels : List (String × Level)
  registeredSinks : List RegisteredSink
  longestScopeNameLength : Nat
  deriving Repr, DecidableEq

/-- Map insertion for `minScopedLevels[key] = level` (replace-or-append,
matching Go map assignment semantics on an association list). -/
def mapInsert (m : List (String × Level)) (key : String) (level : Level) :
    List (String × Level) :=
  match m with
  | [] => [(key, level)]
  | (k, v) :: rest =>
      if k = key then (k, level) :: rest else (k, v) :: mapInsert rest key level

/-- `SetLevel(level)`: sets the global minimum level. -/
def SetLevel (st : LogState) (level : Level) : LogState :=
  { st with minGlobalLevel := level }

/-- `SetLevelScoped(level, scope)`: `minScopedLevels[strings.ToUpper(scope)] = level`. -/
def SetLevelScoped (st : LogState) (level : Level) (scope : String) : LogState :=
  { st with minScopedLevels := mapInsert st.minScopedLevels (goToUpper scope) level }

/-- `getLevelScoped(scope)`: the scoped override, looked up by uppercased
scope name, wins only when it exceeds the global minimum. -/
def getLevelScoped (st : LogState) (scope : String) : Level :=
  match st.minScopedLevels.lookup (goToUpper scope) with
  | some level => if st.minGlobalLevel < level then level else st.minGlobalLevel
  | none => st.minGlobalLevel

/-- `ClearOutputs()`: `registeredSinks = nil; LongestScopeNameLength = 0`. -/
def ClearOutputs (st : LogState) : LogState :=
  { st with registeredSinks := [], longestScopeNameLength := 0 }

/-- `AddOutput(minLevel, sink)`: appends to the registry. -/
def AddOutput (st : LogState) (minLevel : Level) (sinkId : Nat) : LogState :=
  { st with registeredSinks := st.registeredSinks ++ [⟨sinkId, minLevel⟩] }

/-- The state effect of `NewScoped(scope)`: grow `LongestScopeNameLength` to
`len(scope)` when strictly longer (Go `len` counts UTF-8 bytes); the
returned logger value is embedded by `loggerMethods` below. -/
def NewScoped (st : LogState) (scope : String) : LogState :=
  if st.longestScopeNameLength < scope.utf8ByteSize then
    { st with longestScopeNameLength := scope.utf8ByteSize }
  else st

/-! ## `pkg/logger/event.go` — the `event` struct and its methods -/

/-- The done-continuations that occur in the source: `panicString` is the
only `DoneFunc` the package ever attaches (`logger.Panic`, `Mock.newEvent`). -/
inductive DoneFunc where
  | panicString
  deriving Repr, DecidableEq

/-- `type event struct { level Level; ctxs []Context; done DoneFunc }`. -/
structure event where
  level : Level
  ctxs : List Context
  done : Option DoneFunc
  deriving Repr, DecidableEq

/-- The Go zero value `event{}`: level `LevelDebug` (zero), nil contexts,
nil done-continuation. -/
def event.zero : event := { level := LevelDebug, ctxs := [], done := none }

/-- `withKeyedFunc[T](ev, key, value, f)`: applies `f` with the key/value to
every held context and returns the event with the updated contexts. -/
def withKeyedFunc {T : Type} (ev : event) (key : String) (value : T)
    (f : Context → String → T → Context) : event :=
  { ev with ctxs := ev.ctxs.map (fun c => f c key value) }

def event.WithCaller (ev : event) (file : String) (line : Int) : event :=
  withKeyedFunc ev file line Context.SetCaller

def event.WithString (ev : event) (key value : String) : event :=
  withKeyedFunc ev key value Context.AppendString

def event.WithRune (ev : event) (key : String) (value : Char) : event :=
  withKeyedFunc ev key value Context.AppendRune

def event.WithBool (ev : event) (key : String) (value : Bool) : event :=
  withKeyedFunc ev key value Context.AppendBool

def event.WithInt (ev : event) (key : String) (value : Int) : event :=
  withKeyedFunc ev key value Context.AppendInt

def event.WithUint (ev : event) (key : String) (value : Nat) : event :=
  withKeyedFunc ev key value Context.AppendUint

/-- A `fmt.Sprintf` argument: either a plain value already rendered to text,
or a `fmt.Stringer` whose `String()` method would render the given text.
Formatting evaluates the stringer; the instrumentation booleans below record
exactly where the source calls `fmt.Sprintf` / `Stringer.String()`. -/
inductive FmtArg where
  | plain (s : String)
  | stringer (s : String)
  deriving Repr, DecidableEq

def FmtArg.render : FmtArg → String
  | .plain s => s
  | .stringer s => s

/-- Model of Go `fmt.Sprintf` restricted to the `%s`/`%v` verbs: each verb
consumes the next argument's rendering.  Its exact output never matters to a
claim — only whether it runs (and hence evaluates its arguments). -/
def sprintfChars : List Char → List FmtArg → List Char
  | [], _ => []
  | '%' :: _ :: rest, a :: args => a.render.data ++ sprintfChars rest args
  | c :: rest, args => c :: sprintfChars rest args

def sprintf (format : String) (args : List FmtArg) : String :=
  String.mk (sprintfChars format.data args)

/-- One `Context.WriteOut(level, message)` call, tagged with the sink that
created the context it was called on. -/
structure WriteRec where
  sinkId : Nat
  level : Level
  message : String
  deriving Repr, DecidableEq

/-- What a terminal `Message`/`Messagef` call produces: the `WriteOut` calls
(in context order) and the invocation of the done-continuation, if any, with
the message it receives. -/
structure Dispatch where
  writes : List WriteRec
  doneCall : Option (DoneFunc × String)
  deriving Repr, DecidableEq

/-- `event.Message(message)`: `WriteOut(level, message)` on every context,
then invoke the done-continuation (when non-nil) with the message.
(`returnPooledSlice` only recycles the scratch slice and is unobservable.) -/
def event.Message (ev : event) (message : String) : Dispatch :=
  { writes := ev.ctxs.map (fun c => ⟨c.sinkId, ev.level, message⟩),
    doneCall := ev.done.map (fun d => (d, message)) }

/-- `event.Messagef(format, args...)`.  The boolean records whether
`fmt.Sprintf` ran (and with it the arguments' `String()` methods): it runs
in the armed branch, and in the unarmed branch only under `done != nil`. -/
def event.Messagef (ev : event) (format : String) (args : List FmtArg) :
    Dispatch × Bool :=
  if 0 < ev.ctxs.length then
    (ev.Message (sprintf format args), true)
  else
    match ev.done with
    | some d => ({ writes := [], doneCall := some (d, sprintf format args) }, true)
    | none => ({ writes := [], doneCall := none }, false)

/-- `event.WithStringf(key, format, args...)`: formats and delegates to
`WithString` only when armed.  The boolean records whether `fmt.Sprintf` ran. -/
def event.WithStringf (ev : event) (key format : String) (args : List FmtArg) :
    event × Bool :=
  if 0 < ev.ctxs.length then (ev.WithString key (sprintf format args), true)
  else (ev, false)

/-- `event.WithStringer(key, value)`: the `fmt.Stringer` argument is embedded
by the text its `String()` method would render; the boolean records whether
`String()` was called. -/
def event.WithStringer (ev : event) (key : String) (value : String) :
    event × Bool :=
  if 0 < ev.ctxs.length then (ev.WithString key value, true)
  else (ev, false)

/-! ## Event construction -/

/-- Result of constructing an event: the event, plus the trace of
`Sink.NewContext` calls made during construction (sink id and scope, in call
order). -/
structure BuildResult where
  ev : event
  newContextCalls : List (Nat × String)
  deriving Repr, DecidableEq

/-- The registered sinks that pass the per-sink level check of the
`newEventFromSinks` loop (the loop `continue`s when `level < reg.minLevel`). -/
def qualifyingSinks (level : Level) (sinks : List RegisteredSink) :
    List RegisteredSink :=
  sinks.filter (fun reg => !(level < reg.minLevel))

/-- `newEventFromSinks(level, scope, done, sinks)`:
suppressed levels short-circuit to the zero `event{}` before touching any
sink; otherwise one fresh context per registered sink whose `minLevel ≤
level`, then the caller annotation (the ambient
`traceutil.CallerFileWithLineNum()` result is passed in as `caller`; the
empty file name means no qualifying frame was found). -/
def newEventFromSinks (st : LogState) (level : Level) (scope : String)
    (done : Option DoneFunc) (sinks : List RegisteredSink)
    (caller : String × Int) : BuildResult :=
  if level < getLevelScoped st scope then
    { ev := event.zero, newContextCalls := [] }
  else
    { ev :=
        (fun ev : event =>
          if caller.1 ≠ "" then ev.WithCaller caller.1 caller.2 else ev)
        { level := level,
          ctxs := (qualifyingSinks level sinks).map
            (fun reg => newContext reg.sinkId scope),
          done := done },
      newContextCalls :=
        (qualifyingSinks level sinks).map (fun reg => (reg.sinkId, scope)) }

/-- `NewEvent(level, scope, done)`: construction against the globally
registered sinks. -/
def NewEvent (st : LogState) (level : Level) (scope : String)
    (done : Option DoneFunc) (caller : String × Int) : BuildResult :=
  newEventFromSinks st level scope done st.registeredSinks caller

/-- The `Logger` interface: one value per severity method, holding the event
that method returns. -/
structure LoggerI where
  Debug : event
  Info : event
  Warn : event
  Error : event
  Panic : event
  deriving Repr, DecidableEq

/-- The methods of the concrete `logger` struct produced by `New()`
(`scope = ""`) and `NewScoped(scope)`: `Debug`..`Error` attach no
done-continuation; `Panic` attaches `panicString`. -/
def loggerMethods (st : LogState) (scope : String) (caller : String × Int) :
    LoggerI :=
  { Debug := (NewEvent st LevelDebug scope none caller).ev
    Info := (NewEvent st LevelInfo scope none caller).ev
    Warn := (NewEvent st LevelWarn scope none caller).ev
    Error := (NewEvent st LevelError scope none caller).ev
    Panic := (NewEvent st LevelPanic scope (some .panicString) caller).ev }

/-- `NewEventFromLogger(log, level)`: dispatch on the five defined levels;
any other level hits `panic(fmt.Sprintf("invalid log level: %s", level))`,
embedded as `Except.error` with the panic message. -/
def NewEventFromLogger (log : LoggerI) (level : Level) : Except String event :=
  if level = LevelDebug then .ok log.Debug
  else if level = LevelInfo then .ok log.Info
  else if level = LevelWarn then .ok log.Warn
  else if level = LevelError then .ok log.Error
  else if level = LevelPanic then .ok log.Panic
  else .error ("invalid log level: " ++ levelString level)

/-! ## `internal/traceutil/traceutil.go`

`runtime.Caller(i)` is embedded as an ambient stack: a function from frame
depth to `some (path, line)` when the frame exists, `none` when `ok` is
false.  `wharfCoreDir` (computed in `init()`) is a parameter. -/

/-- Model of Go `strings.HasPrefix`. -/
def hasPrefix (s pre : String) : Bool := pre.data.isPrefixOf s.data

/-- Model of Go `strings.HasSuffix`. -/
def hasSuffix (s suf : String) : Bool := suf.data.reverse.isPrefixOf s.data.reverse

/-- `isValidCallerFile(path)`: test files, files outside the wharf-core
source tree, and `main.go` files qualify. -/
def isValidCallerFile (wharfCoreDir : String) (path : String) : Bool :=
  hasSuffix path "_test.go" || !hasPrefix path wharfCoreDir || hasSuffix path "/main.go"

/-- Model of Go `filepath.Split`: split after the final separator. -/
def filepathSplit (path : String) : String × String :=
  let rev := path.data.reverse
  let file := rev.takeWhile (fun c => c ≠ '/')
  let dir := rev.dropWhile (fun c => c ≠ '/')
  (String.mk dir.reverse, String.mk file.reverse)

/-- Model of Go `filepath.Base`: last non-empty path element, with trailing
separators removed; `"."` for the empty path, `"/"` for all-separator paths. -/
def filepathBase (path : String) : String :=
  if path = "" then "."
  else
    let trimmed := path.data.reverse.dropWhile (fun c => c = '/')
    if trimmed = [] then "/"
    else String.mk (trimmed.takeWhile (fun c => c ≠ '/')).reverse

/-- `fileAndLastDir(path)`: the file name prefixed with its direct parent
directory (`filepath.Join(filepath.Base(dir), file)`), or `"???/" ++ file`
when the path has no directory part. -/
def fileAndLastDir (path : String) : String :=
  let (dir, file) := filepathSplit path
  if dir = "" then "???/" ++ file
  else filepathBase dir ++ "/" ++ file

/-- The loop body of `CallerFileWithLineNum` over an explicit list of frame
depths: the first existing frame with a qualifying path wins. -/
def callerFrom (wharfCoreDir : String) (stack : Nat → Option (String × Int)) :
    List Nat → String × Int
  | [] => ("", 0)
  | i :: rest =>
      match stack i with
      | some (path, line) =>
          if isValidCallerFile wharfCoreDir path then (fileAndLastDir path, line)
          else callerFrom wharfCoreDir stack rest
      | none => callerFrom wharfCoreDir stack rest

/-- `CallerFileWithLineNum()`: walk depths `startDepth = 2` through
`maxDepth = 15` inclusive (`List.range' 2 14 = [2, ..., 15]`). -/
def CallerFileWithLineNum (wharfCoreDir : String)
    (stack : Nat → Option (String × Int)) : String × Int :=
  callerFrom wharfCoreDir stack (List.range' 2 14)

/-! ## Observation helpers and concrete inputs used by the theorems -/

/-- How many `WriteOut` calls of a dispatch landed on contexts created by the
sink with the given id. -/
def countWrites (sinkId : Nat) (d : Dispatch) : Nat :=
  (d.writes.filter (fun w => w.sinkId == sinkId)).length

/-- Whether the stack frame at depth `i` exists and has a qualifying path. -/
def qualFrame (wharfCoreDir : String) (stack : Nat → Option (String × Int))
    (i : Nat) : Bool :=
  match stack i with
  | some (path, _) => isValidCallerFile wharfCoreDir path
  | none => false

/-- The thirteen strings `ParseLevel` accepts (after lower-casing and
trimming). -/
def acceptedNames : List String :=
  ["d", "debug", "debugging", "i", "info", "information",
   "w", "warn", "warning", "e", "error", "p", "panic"]

/-- A registry state whose global minimum is `LevelSilence` and that holds no
sinks: every event, `Panic` included, is suppressed. -/
def stSilenced : LogState :=
  { minGlobalLevel := LevelSilence, minScopedLevels := [],
    registeredSinks := [], longestScopeNameLength := 0 }

/-- A registry state with global minimum `LevelWarn` and one debug-level
sink: `Debug` events are suppressed by the global threshold. -/
def stWarnFloor : LogState :=
  { minGlobalLevel := LevelWarn, minScopedLevels := [],
    registeredSinks := [⟨7, LevelDebug⟩], longestScopeNameLength := 0 }

/-- A permissive state (global minimum `LevelDebug`) with an empty registry:
events are armed-by-level but hold zero contexts. -/
def stNoSinks : LogState :=
  { minGlobalLevel := LevelDebug, minScopedLevels := [],
    registeredSinks := [], longestScopeNameLength := 0 }

/-- A permissive state holding one sink (id 3) with minimum `LevelWarn`. -/
def stOneSink : LogState :=
  { minGlobalLevel := LevelDebug, minScopedLevels := [],
    registeredSinks := [⟨3, LevelWarn⟩], longestScopeNameLength := 0 }

/-- A concrete call stack: depth 2 is a frame inside the wharf-core tree
(`/go/wharf-core/...`), depth 3 is application code outside it. -/
def stackApp : Nat → Option (String × Int) := fun i =>
  if i = 2 then some ("/go/wharf-core/pkg/logger/logger.go", 10)
  else if i = 3 then some ("/app/cmd/server.go", 42)
  else none

/-- A concrete call stack with no qualifying frame at any depth: every
existing frame lies inside the wharf-core tree. -/
def stackInternal : Nat → Option (String × Int) := fun i =>
  if i ≤ 9 then some ("/go/wharf-core/pkg/logger/logger.go", 10) else none

/-! ## Theorems -/

/-- Helper: full case analysis of the `ParseLevel` switch over an arbitrary
normalised scrutinee `t`. -/
theorem parseLevelSwitch_spec (t lvl : String) :
    ((parseLevelSwitch t lvl).2 = none ↔ t ∈ acceptedNames)
  ∧ ((parseLevelSwitch t lvl).2 ≠ none →
      parseLevelSwitch t lvl =
        (LevelDebug, some ("invalid logging level string: \x22" ++ lvl ++ "\x22")))
  ∧ (t ∈ ["d", "debug", "debugging"] → parseLevelSwitch t lvl = (LevelDebug, none))
  ∧ (t ∈ ["i", "info", "information"] → parseLevelSwitch t lvl = (LevelInfo, none))
  ∧ (t ∈ ["w", "warn", "warning"] → parseLevelSwitch t lvl = (LevelWarn, none))
  ∧ (t ∈ ["e", "error"] → parseLevelSwitch t lvl = (LevelError, none))
  ∧ (t ∈ ["p", "panic"] → parseLevelSwitch t lvl = (LevelPanic, none)) := by
  unfold parseLevelSwitch acceptedNames
  split_ifs with h1 h2 h3 h4 h5 <;>
    refine ⟨?_, ?_, ?_, ?_, ?_, ?_, ?_⟩ <;>
    simp_all <;>
    first
      | tauto
      | (intro hx
         rcases hx with h | h | h <;> subst h <;> simp_all)
      | (intro hx
         rcases hx with h | h <;> subst h <;> simp_all)

/-- C6: `ParseLevel (Level.String())` round-trips for each of the five
defined levels Debug, Info, Warn, Error, Panic with a nil error, while the
filter-only `LevelSilence` has no round-trip: parsing its rendering yields a
non-nil error. -/
theorem c6_string_parse_roundtrip :
    ParseLevel (levelString LevelDebug) = (LevelDebug, none)
  ∧ ParseLevel (levelString LevelInfo) = (LevelInfo, none)
  ∧ ParseLevel (levelString LevelWarn) = (LevelWarn, none)
  ∧ ParseLevel (levelString LevelError) = (LevelError, none)
  ∧ ParseLevel (levelString LevelPanic) = (LevelPanic, none)
  ∧ ParseLevel (levelString LevelSilence)
      = (LevelDebug,
         some "invalid logging level string: \x22Level(5)\x22") := by decide

/-- C7, counterexample: the claim says every input other than the
case-insensitive names/abbreviations yields a non-nil error, yet
`" DEBUG "` — not a case variant of any accepted name, as its lower-casing
is not in the accepted list — parses to `(LevelDebug, nil)` because
`ParseLevel` also trims surrounding whitespace. -/
theorem c7_counterexample :
    goToLower " DEBUG " ∉ acceptedNames
  ∧ ParseLevel " DEBUG " = (LevelDebug, none) := by decide

/-- C7, amended: `ParseLevel` accepts exactly the strings whose
whitespace-trimmed, lower-cased form is one of d/debug/debugging,
i/info/information, w/warn/warning, e/error, p/panic, returning the
corresponding level with a nil error; every other input yields
`(LevelDebug, non-nil "invalid logging level string" error)`. -/
theorem c7_parse_level_classification (s : String) :
    ((ParseLevel s).2 = none ↔ goTrimSpace (goToLower s) ∈ acceptedNames)
  ∧ ((ParseLevel s).2 ≠ none →
      ParseLevel s =
        (LevelDebug, some ("invalid logging level string: \x22" ++ s ++ "\x22")))
  ∧ (goTrimSpace (goToLower s) ∈ ["d", "debug", "debugging"] →
      ParseLevel s = (LevelDebug, none))
  ∧ (goTrimSpace (goToLower s) ∈ ["i", "info", "information"] →
      ParseLevel s = (LevelInfo, none))
  ∧ (goTrimSpace (goToLower s) ∈ ["w", "warn", "warning"] →
      ParseLevel s = (LevelWarn, none))
  ∧ (goTrimSpace (goToLower s) ∈ ["e", "error"] →
      ParseLevel s = (LevelError, none))
  ∧ (goTrimSpace (goToLower s) ∈ ["p", "panic"] →
      ParseLevel s = (LevelPanic, none)) := by
  have h := parseLevelSwitch_spec (goTrimSpace (goToLower s)) s
  simpa [ParseLevel] using h

/-- C7, witness for the amended theorem at the concrete input `"WARN"`. -/
theorem c7_witness :
    goTrimSpace (goToLower "WARN") ∈ ["w", "warn", "warning"]
  ∧ ParseLevel "WARN" = (LevelWarn, none) :=
  ⟨by decide, (c7_parse_level_classification "WARN").2.2.2.2.1 (by decide)⟩

/-- C10: `NewEventFromLogger` returns the event of the matching severity
method for each of the five defined levels, and panics with an
"invalid log level" message on any other level value, `LevelSilence`
included. -/
theorem c10_new_event_from_logger (log : LoggerI) (level : Level) :
    (level = LevelDebug → NewEventFromLogger log level = .ok log.Debug)
  ∧ (level = LevelInfo → NewEventFromLogger log level = .ok log.Info)
  ∧ (level = LevelWarn → NewEventFromLogger log level = .ok log.Warn)
  ∧ (level = LevelError → NewEventFromLogger log level = .ok log.Error)
  ∧ (level = LevelPanic → NewEventFromLogger log level = .ok log.Panic)
  ∧ (level ∉ [LevelDebug, LevelInfo, LevelWarn, LevelError, LevelPanic] →
      NewEventFromLogger log level =
        .error ("invalid log level: " ++ levelString level)) := by
  unfold NewEventFromLogger
  split_ifs with h1 h2 h3 h4 h5 <;>
    simp_all [LevelDebug, LevelInfo, LevelWarn, LevelError, LevelPanic]

/-- C10, witness at the filter-only level `LevelSilence`. -/
theorem c10_witness :
    NewEventFromLogger
      ⟨event.zero, event.zero, event.zero, event.zero, event.zero⟩ LevelSilence
      = .error ("invalid log level: " ++ levelString LevelSilence) :=
  (c10_new_event_from_logger
    ⟨event.zero, event.zero, event.zero, event.zero, event.zero⟩
    LevelSilence).2.2.2.2.2 (by decide)

/-- Helper: one `NewScoped` call never shrinks the scope-length tracker. -/
theorem newScoped_longest_le (st : LogState) (scope : String) :
    st.longestScopeNameLength ≤ (NewScoped st scope).longestScopeNameLength := by
  unfold NewScoped
  split
  next h => exact Nat.le_of_lt h
  next h => exact Nat.le_refl _

/-- Helper: the tracker is non-decreasing across any sequence of `NewScoped`
calls. -/
theorem foldl_newScoped_mono (scopes : List String) (st : LogState) :
    st.longestScopeNameLength ≤
      (scopes.foldl NewScoped st).longestScopeNameLength := by
  induction scopes generalizing st with
  | nil => exact Nat.le_refl _
  | cons s rest ih =>
      exact Nat.le_trans (newScoped_longest_le st s) (ih (NewScoped st s))

/-- C8: `ClearOutputs` empties the sink registry and zeroes the
max-scope-length tracker while leaving the global and scoped minimum levels
untouched; `NewScoped` raises the tracker to the maximum of its current
value and the byte length of the new scope name, so the tracker is
non-decreasing across any sequence of `NewScoped` calls. -/
theorem c8_clear_outputs_and_tracker (st : LogState) (scope : String)
    (scopes : List String) :
    (ClearOutputs st).registeredSinks = []
  ∧ (ClearOutputs st).longestScopeNameLength = 0
  ∧ (ClearOutputs st).minGlobalLevel = st.minGlobalLevel
  ∧ (ClearOutputs st).minScopedLevels = st.minScopedLevels
  ∧ (NewScoped st scope).longestScopeNameLength =
      max st.longestScopeNameLength scope.utf8ByteSize
  ∧ st.longestScopeNameLength ≤
      (scopes.foldl NewScoped st).longestScopeNameLength := by
  refine ⟨rfl, rfl, rfl, rfl, ?_, foldl_newScoped_mono scopes st⟩
  unfold NewScoped
  split
  next h =>
    show scope.utf8ByteSize = max st.longestScopeNameLength scope.utf8ByteSize
    omega
  next h =>
    show st.longestScopeNameLength =
      max st.longestScopeNameLength scope.utf8ByteSize
    omega

/-- C2, counterexample: with the global minimum at `LevelSilence` the Panic
event is suppressed, and `Logger.Panic()` returns the zero `event{}` whose
done-continuation is nil — so `Message` invokes no continuation and no panic
occurs, contrary to the claim. -/
theorem c2_counterexample :
    LevelPanic < getLevelScoped stSilenced ""
  ∧ (loggerMethods stSilenced "" ("", 0)).Panic.done = none
  ∧ ((loggerMethods stSilenced "" ("", 0)).Panic.Message "boom").doneCall
      = none := by decide

/-- C2, amended: under every scope and threshold configuration that
suppresses the Panic level, `Logger.Panic()` returns the zero `event{}`
carrying no contexts and no done-continuation, so `Message(text)` performs
no `WriteOut` and invokes no continuation: the panic does not occur while
logging is suppressed. -/
theorem c2_suppressed_panic_drops_done (st : LogState) (scope : String)
    (caller : String × Int) (text : String)
    (h : LevelPanic < getLevelScoped st scope) :
    (loggerMethods st scope caller).Panic = event.zero
  ∧ ((loggerMethods st scope caller).Panic.Message text).writes = []
  ∧ ((loggerMethods st scope caller).Panic.Message text).doneCall = none := by
  have hz : (loggerMethods st scope caller).Panic = event.zero := by
    unfold loggerMethods NewEvent newEventFromSinks
    simp [h]
  refine ⟨hz, ?_, ?_⟩ <;> rw [hz] <;> rfl

/-- C2, witness for the amended theorem at a concrete silenced scope. -/
theorem c2_witness :
    LevelPanic < getLevelScoped stSilenced "DB"
  ∧ (loggerMethods stSilenced "DB" ("cmd/main.go", 3)).Panic = event.zero :=
  ⟨by decide,
   (c2_suppressed_panic_drops_done stSilenced "DB" ("cmd/main.go", 3) "x"
      (by decide)).1⟩

/-- C3: an event constructed below the effective threshold holds zero
contexts, its construction performs zero `Sink.NewContext` calls, and every
field-append call on it — `withKeyedFunc` under any context operation, and
in particular `WithString`/`WithRune`/`WithBool`/`WithInt`/`WithUint` —
applies no context operation and returns the event unchanged. -/
theorem c3_suppressed_event_inert (st : LogState) (sinks : List RegisteredSink)
    (level : Level) (scope : String) (done : Option DoneFunc)
    (caller : String × Int) (key : String)
    (h : level < getLevelScoped st scope) :
    (newEventFromSinks st level scope done sinks caller).ev.ctxs = []
  ∧ (newEventFromSinks st level scope done sinks caller).newContextCalls = []
  ∧ (∀ {T : Type} (value : T) (f : Context → String → T → Context),
      withKeyedFunc (newEventFromSinks st level scope done sinks caller).ev
        key value f = (newEventFromSinks st level scope done sinks caller).ev)
  ∧ (∀ value, (newEventFromSinks st level scope done sinks caller).ev.WithString
        key value = (newEventFromSinks st level scope done sinks caller).ev)
  ∧ (∀ value, (newEventFromSinks st level scope done sinks caller).ev.WithRune
        key value = (newEventFromSinks st level scope done sinks caller).ev)
  ∧ (∀ value, (newEventFromSinks st level scope done sinks caller).ev.WithBool
        key value = (newEventFromSinks st level scope done sinks caller).ev)
  ∧ (∀ value, (newEventFromSinks st level scope done sinks caller).ev.WithInt
        key value = (newEventFromSinks st level scope done sinks caller).ev)
  ∧ (∀ value, (newEventFromSinks st level scope done sinks caller).ev.WithUint
        key value = (newEventFromSinks st level scope done sinks caller).ev) := by
  have hz : newEventFromSinks st level scope done sinks caller
      = ⟨event.zero, []⟩ := by
    unfold newEventFromSinks
    simp [h]
  rw [hz]
  exact ⟨rfl, rfl, fun _ _ => rfl, fun _ => rfl, fun _ => rfl, fun _ => rfl,
    fun _ => rfl, fun _ => rfl⟩

/-- C3, witness: a Debug event against a Warn global floor with one
registered sink makes no `NewContext` call. -/
theorem c3_witness :
    LevelDebug < getLevelScoped stWarnFloor ""
  ∧ (newEventFromSinks stWarnFloor LevelDebug "" none
      stWarnFloor.registeredSinks ("", 0)).newContextCalls = [] :=
  ⟨by decide,
   (c3_suppressed_event_inert stWarnFloor stWarnFloor.registeredSinks
      LevelDebug "" none ("", 0) "k" (by decide)).2.1⟩

/-- C4, counterexample: a Panic event with zero contexts (empty registry)
still carries the done-continuation, and `Messagef` on it does run
`fmt.Sprintf` — evaluating its format arguments' `String()` methods — before
invoking the continuation, contrary to the claim that the format work never
happens on a suppressed event. -/
theorem c4_counterexample :
    (loggerMethods stNoSinks "" ("", 0)).Panic.ctxs = []
  ∧ ((loggerMethods stNoSinks "" ("", 0)).Panic.Messagef "%s"
      [.stringer "x"]).2 = true := by decide

/-- C4, amended: `Messagef` on an event holding zero contexts dispatches no
`WriteOut`; when no done-continuation exists it does nothing at all and
performs no formatting; when a continuation exists it skips sink dispatch
and invokes the continuation with the formatted message — the formatting
(and with it the arguments' `String()` evaluation) does happen then. -/
theorem c4_unarmed_messagef (ev : event) (format : String) (args : List FmtArg)
    (h : ev.ctxs = []) :
    (ev.Messagef format args).1.writes = []
  ∧ (ev.done = none → ev.Messagef format args = (⟨[], none⟩, false))
  ∧ (∀ d, ev.done = some d →
      ev.Messagef format args = (⟨[], some (d, sprintf format args)⟩, true)) := by
  have hlen : ¬ 0 < ev.ctxs.length := by simp [h]
  unfold event.Messagef
  rw [if_neg hlen]
  cases hd : ev.done <;> simp

/-- C4, witness for the amended theorem: an Error event with an empty
registry has no continuation, and `Messagef` on it does nothing. -/
theorem c4_witness :
    (loggerMethods stNoSinks "" ("", 0)).Error.ctxs = []
  ∧ (loggerMethods stNoSinks "" ("", 0)).Error.Messagef "%s" [.plain "x"]
      = (⟨[], none⟩, false) :=
  ⟨by decide,
   (c4_unarmed_messagef ((loggerMethods stNoSinks "" ("", 0)).Error) "%s"
      [.plain "x"] (by decide)).2.1 (by decide)⟩

/-- C5: on an unarmed event (zero contexts), `WithStringf` performs no
formatting and `WithStringer` never calls `String()`, both returning the
event unchanged; on an armed event, `WithStringf key format args` equals
`WithString key (Sprintf format args)` and `WithStringer key v` equals
`WithString key (v.String())`, the formatting/rendering happening exactly
once. -/
theorem c5_conditional_formatting (ev : event) (key format value : String)
    (args : List FmtArg) :
    (ev.ctxs = [] →
      ev.WithStringf key format args = (ev, false)
    ∧ ev.WithStringer key value = (ev, false))
  ∧ (ev.ctxs ≠ [] →
      ev.WithStringf key format args
        = (ev.WithString key (sprintf format args), true)
    ∧ ev.WithStringer key value = (ev.WithString key value, true)) := by
  constructor
  · intro h
    constructor <;> simp [event.WithStringf, event.WithStringer, h]
  · intro h
    have hlen : 0 < ev.ctxs.length := List.length_pos.mpr h
    constructor <;> simp [event.WithStringf, event.WithStringer, hlen]

/-- C5, witness on a concrete armed event (one qualifying sink). -/
theorem c5_witness :
    (loggerMethods stOneSink "" ("", 0)).Error.ctxs.length = 1
  ∧ (loggerMethods stOneSink "" ("", 0)).Error.WithStringf "k" "%s" [.plain "v"]
      = ((loggerMethods stOneSink "" ("", 0)).Error.WithString "k"
          (sprintf "%s" [.plain "v"]), true) :=
  ⟨by decide,
   ((c5_conditional_formatting ((loggerMethods stOneSink "" ("", 0)).Error)
      "k" "%s" "v" [.plain "v"]).2 (by decide)).1⟩

/-- Helper: the effective threshold computed by `getLevelScoped` is the
maximum of the global minimum and the scoped override (with the global
minimum standing in when no override is present). -/
theorem getLevelScoped_eq_max (st : LogState) (scope : String) :
    getLevelScoped st scope =
      max st.minGlobalLevel
        ((st.minScopedLevels.lookup (goToUpper scope)).getD
          st.minGlobalLevel) := by
  unfold getLevelScoped
  cases h : st.minScopedLevels.lookup (goToUpper scope) with
  | none => simp
  | some o =>
      simp only [Option.getD_some]
      show (if st.minGlobalLevel < o then o else st.minGlobalLevel)
        = max st.minGlobalLevel o
      rcases Nat.le_total o st.minGlobalLevel with h | h
      · rw [max_eq_left h]
        split
        next h2 => exact absurd h2 (Nat.not_lt.mpr h)
        next h2 => rfl
      · rw [max_eq_right h]
        split
        next h2 => rfl
        next h2 => exact Nat.le_antisymm h (Nat.le_of_not_lt h2)

/-- Helper: `Message` produces one `WriteOut` per held context, so the
per-sink write count is the count of that sink's contexts. -/
theorem countWrites_message (e : event) (sid : Nat) (msg : String) :
    countWrites sid (e.Message msg)
      = e.ctxs.countP (fun c => c.sinkId == sid) := by
  unfold countWrites event.Message
  rw [List.filter_map, List.length_map, List.countP_eq_length_filter]
  rfl

/-- Helper: `WithCaller` maps `SetCaller` over the contexts, preserving each
context's sink, so per-sink context counts are unchanged. -/
theorem countP_withCaller (e : event) (file : String) (line : Int) (sid : Nat) :
    (e.WithCaller file line).ctxs.countP (fun c => c.sinkId == sid)
      = e.ctxs.countP (fun c => c.sinkId == sid) := by
  unfold event.WithCaller withKeyedFunc
  rw [List.countP_map]
  rfl

/-- Helper: among the qualifying sinks, the contexts of sink `sid` number
exactly one when the registry holds `sid` once with minimum `m` and
`m ≤ level`, and zero otherwise. -/
theorem countP_qualifying_contexts (sinks : List RegisteredSink) (sid : Nat)
    (level m : Level) (scope : String)
    (hreg : sinks.filter (fun r => r.sinkId == sid) = [⟨sid, m⟩]) :
    ((qualifyingSinks level sinks).map
        (fun reg => newContext reg.sinkId scope)).countP
      (fun c => c.sinkId == sid)
      = if m ≤ level then 1 else 0 := by
  unfold qualifyingSinks
  rw [List.countP_map, List.countP_filter]
  have hcomm :
      (fun a : RegisteredSink =>
        ((fun c : Context => c.sinkId == sid) ∘
          fun reg : RegisteredSink => newContext reg.sinkId scope) a &&
          !(level < a.minLevel))
      = (fun a : RegisteredSink =>
          !(level < a.minLevel) && (a.sinkId == sid)) := by
    funext a
    exact Bool.and_comm _ _
  rw [hcomm, ← List.countP_filter, hreg]
  by_cases hm : m ≤ level <;>
    simp [List.countP_cons, hm, Nat.not_lt.mpr, Nat.lt_of_not_le]

/-- C1: through the full pipeline (event construction from the registry,
then `Message`), a sink registered once with minimum `M` receives exactly
one `WriteOut` call if and only if the event's level is at least `M` and at
least the effective threshold `max(G, O)` — the scoped override `O` looked
up by uppercased scope name (defaulting to `G`) — and receives nothing
otherwise. -/
theorem c1_sink_delivery (st : LogState) (sinks : List RegisteredSink)
    (sid : Nat) (m level : Level) (scope msg : String)
    (done : Option DoneFunc) (caller : String × Int)
    (hreg : sinks.filter (fun r => r.sinkId == sid) = [⟨sid, m⟩]) :
    countWrites sid
      ((newEventFromSinks st level scope done sinks caller).ev.Message msg)
      = if m ≤ level ∧
           max st.minGlobalLevel
             ((st.minScopedLevels.lookup (goToUpper scope)).getD
               st.minGlobalLevel) ≤ level
        then 1 else 0 := by
  rw [← getLevelScoped_eq_max]
  by_cases hsup : level < getLevelScoped st scope
  · have hz : newEventFromSinks st level scope done sinks caller
        = ⟨event.zero, []⟩ := by
      unfold newEventFromSinks
      simp [hsup]
    rw [hz, if_neg (fun hand => absurd hsup (Nat.not_lt.mpr hand.2))]
    rfl
  · unfold newEventFromSinks
    rw [if_neg hsup]
    dsimp only
    rw [countWrites_message]
    have hthr : getLevelScoped st scope ≤ level := Nat.le_of_not_lt hsup
    have hcount :
        ((qualifyingSinks level sinks).map
            (fun reg => newContext reg.sinkId scope)).countP
          (fun c => c.sinkId == sid) = if m ≤ level then 1 else 0 :=
      countP_qualifying_contexts sinks sid level m scope hreg
    by_cases hc : caller.1 ≠ ""
    · rw [if_pos hc, countP_withCaller, hcount]
      by_cases hm : m ≤ level <;> simp [hm, hthr]
    · rw [if_neg hc, hcount]
      by_cases hm : m ≤ level <;> simp [hm, hthr]

/-- C1, witness: one sink (id 3, minimum Warn) registered once; a Warn-level
event delivers exactly one write to it. -/
theorem c1_witness :
    (stOneSink.registeredSinks.filter (fun r => r.sinkId == 3)
        = [⟨3, LevelWarn⟩])
  ∧ countWrites 3
      ((newEventFromSinks stOneSink LevelWarn "" none
          stOneSink.registeredSinks ("", 0)).ev.Message "m")
      = if LevelWarn ≤ LevelWarn ∧
           max stOneSink.minGlobalLevel
             ((stOneSink.minScopedLevels.lookup (goToUpper "")).getD
               stOneSink.minGlobalLevel) ≤ LevelWarn
        then 1 else 0 :=
  ⟨by decide,
   c1_sink_delivery stOneSink stOneSink.registeredSinks 3 LevelWarn LevelWarn
     "" "m" none ("", 0) (by decide)⟩

/-- Helper: the caller-resolution loop yields `("", 0)` when no listed depth
holds a qualifying frame. -/
theorem callerFrom_all_invalid (dir : String)
    (stack : Nat → Option (String × Int)) (L : List Nat)
    (h : ∀ i ∈ L, qualFrame dir stack i = false) :
    callerFrom dir stack L = ("", 0) := by
  induction L with
  | nil => rfl
  | cons i rest ih =>
      have hrest : ∀ j ∈ rest, qualFrame dir stack j = false :=
        fun j hj => h j (List.mem_cons_of_mem i hj)
      unfold callerFrom
      cases hs : stack i with
      | none => exact ih hrest
      | some pl =>
          obtain ⟨p, l⟩ := pl
          have hv : isValidCallerFile dir p = false := by
            have hi := h i (List.mem_cons_self i rest)
            unfold qualFrame at hi
            rw [hs] at hi
            exact hi
          show (if isValidCallerFile dir p = true then (fileAndLastDir p, l)
            else callerFrom dir stack rest) = ("", 0)
          rw [hv, if_neg (by decide)]
          exact ih hrest

/-- Helper: the caller-resolution loop returns the first qualifying frame:
depths before it hold none, the frame at `i` exists and qualifies. -/
theorem callerFrom_found (dir : String)
    (stack : Nat → Option (String × Int)) (L1 L2 : List Nat) (i : Nat)
    (p : String) (l : Int)
    (h1 : ∀ j ∈ L1, qualFrame dir stack j = false)
    (hf : stack i = some (p, l)) (hv : isValidCallerFile dir p = true) :
    callerFrom dir stack (L1 ++ i :: L2) = (fileAndLastDir p, l) := by
  induction L1 with
  | nil =>
      simp only [List.nil_append]
      unfold callerFrom
      rw [hf]
      simp [hv]
  | cons a rest ih =>
      have hrest : ∀ j ∈ rest, qualFrame dir stack j = false :=
        fun j hj => h1 j (List.mem_cons_of_mem a hj)
      rw [List.cons_append]
      unfold callerFrom
      cases hs : stack a with
      | none => exact ih hrest
      | some pl =>
          obtain ⟨q, r⟩ := pl
          have hv : isValidCallerFile dir q = false := by
            have ha := h1 a (List.mem_cons_self a rest)
            unfold qualFrame at ha
            rw [hs] at ha
            exact ha
          show (if isValidCallerFile dir q = true then (fileAndLastDir q, r)
            else callerFrom dir stack (rest ++ i :: L2)) = (fileAndLastDir p, l)
          rw [hv, if_neg (by decide)]
          exact ih hrest

/-- C9: `CallerFileWithLineNum` examines stack depths 2 through 15
inclusive; it returns the processed path and line of the first frame that
exists and qualifies (path ends in `_test.go`, or lies outside the
wharf-core source tree, or ends in `/main.go`), and returns `("", 0)` with
no error when no frame within the depth bound qualifies. -/
theorem c9_caller_resolution (dir : String)
    (stack : Nat → Option (String × Int)) :
    ((∀ j, 2 ≤ j → j ≤ 15 → qualFrame dir stack j = false) →
      CallerFileWithLineNum dir stack = ("", 0))
  ∧ (∀ i p l, 2 ≤ i → i ≤ 15 → stack i = some (p, l) →
      isValidCallerFile dir p = true →
      (∀ j, 2 ≤ j → j < i → qualFrame dir stack j = false) →
      CallerFileWithLineNum dir stack = (fileAndLastDir p, l)) := by
  constructor
  · intro h
    unfold CallerFileWithLineNum
    apply callerFrom_all_invalid
    intro j hj
    rw [List.mem_range'_1] at hj
    exact h j hj.1 (by omega)
  · intro i p l h2 h15 hf hv hmin
    unfold CallerFileWithLineNum
    have e1 : List.range' i (16 - i) = i :: List.range' (i + 1) (15 - i) := by
      have h16 : 16 - i = (15 - i) + 1 := by omega
      rw [h16, List.range'_succ]
    have e2 := List.range'_append 2 (i - 2) (16 - i) 1
    have ha : 2 + 1 * (i - 2) = i := by omega
    have hb : (16 - i) + (i - 2) = 14 := by omega
    rw [ha, hb] at e2
    rw [← e2, e1]
    apply callerFrom_found dir stack _ _ i p l _ hf hv
    intro j hj
    rw [List.mem_range'_1] at hj
    exact hmin j hj.1 (by omega)

/-- C9, witness: depth 2 holds a frame inside the library tree, depth 3 the
first application frame — the latter is reported. -/
theorem c9_witness :
    stackApp 3 = some ("/app/cmd/server.go", 42)
  ∧ CallerFileWithLineNum "/go/wharf-core" stackApp
      = (fileAndLastDir "/app/cmd/server.go", 42) :=
  ⟨by decide,
   (c9_caller_resolution "/go/wharf-core" stackApp).2 3 "/app/cmd/server.go"
     42 (by decide) (by decide) (by decide) (by decide)
     (fun j hj1 hj2 => by
        have hj : j = 2 := by omega
        subst hj
        decide)⟩

end WharfCore
